import Mathlib

/-!
Verification of the aicarousel dispatch core and its supporting services.

Each definition is a shallow embedding of the corresponding TypeScript
function from the repository.  Async streams of text chunks are modelled as
`List String`; an upstream adapter is modelled by the outcome it produces
for a given (provider key, model) pair; the SQLite tables are modelled as
lists of row records; the models.json store is modelled as an association
list, with the atomic-save operation returning the newly persisted value in
`Except`.
-/

/-! ## String helpers

JavaScript's `value.trim() !== ""`, `s.startsWith(pre)` and `s.slice(0, n)`
are embedded through the character list of the string (`trim` removes
leading and trailing whitespace, so trimming to the empty string means the
string is all whitespace). -/

/-- JS `s.trim() !== ""`: some character is not whitespace. -/
def nonBlank (s : String) : Bool := s.data.any (fun c => !c.isWhitespace)

/-- JS `s.startsWith(pre)`. -/
def strStarts (s pre : String) : Bool := pre.data.isPrefixOf s.data

/-- JS `s.slice(0, n)` (also `String.take` of the source helpers). -/
def strTake (s : String) (n : Nat) : String := ⟨s.data.take n⟩

/-! ## Embedding of src/services/chat_handler.ts -/

/-- A chat message, from `defaults/types.ts` (`role` is one of
"system" / "user" / "assistant", `content` a string). -/
structure ChatMessage where
  role : String
  content : String
deriving DecidableEq

/-- Provider descriptor handed to `handleChat` by `getActiveProviders`
(fields as used by `chat_handler.ts` and the test mocks). -/
structure ActiveProvider where
  key : String
  name : String
  models : List String
  defaultModel : String
  enableFallback : Bool
  priority : Int
deriving DecidableEq

/-- Behaviour of `service.chat(messages)` as observed by `tryModel`:
either the first iterator step fails (synchronous throw or rejected
`iterator.next()`), or the stream delivers the given list of chunks. -/
inductive StreamBehavior where
  | firstFail (err : String)
  | chunks (l : List String)
deriving DecidableEq

/-- Behaviour of `createServiceWithModel(key, model)` followed by
`service.chat`: construction may throw, otherwise a stream behaviour. -/
inductive AdapterOutcome where
  | createFail (err : String)
  | ok (b : StreamBehavior)
deriving DecidableEq

/-- Embeds `ChatResult` from `chat_handler.ts`; the stream is the combined
stream `createCombinedStream(first, iterator)`, i.e. the first chunk
followed by the remaining chunks. -/
structure ChatResult where
  stream : List String
  serviceName : String
  model : String
  providerKey : String
deriving DecidableEq

/-- Embeds `tryModel` (chat_handler.ts lines 25–54): fetch the first iterator
step; `done` or a throw yields `null`, otherwise the combined stream is
returned.  `createCombinedStream` (lines 160–171) yields the first chunk
then delegates to the rest, hence `first :: rest`. -/
def tryModel (serviceName model providerKey : String) (b : StreamBehavior) :
    Option ChatResult :=
  match b with
  | .firstFail _ => none
  | .chunks [] => none
  | .chunks (first :: rest) =>
      some { stream := first :: rest, serviceName := serviceName,
             model := model, providerKey := providerKey }

/-- Embeds `getOrderedModels` (chat_handler.ts lines 100–108): the default model
first, then every other model in list order. -/
def getOrderedModels (models : List String) (defaultModel : String) : List String :=
  defaultModel :: models.filter (fun m => m ≠ defaultModel)

/-- The `modelsToTry` computation at the top of `tryProvider`
(chat_handler.ts lines 67–69). -/
def modelsToTry (p : ActiveProvider) : List String :=
  if p.enableFallback then getOrderedModels p.models p.defaultModel
  else [p.defaultModel]

/-- Result of `tryProvider`, together with the models the loop attempted
(in order), which the source logs one by one. -/
structure TryProviderOutcome where
  result : Option ChatResult
  lastError : Option String
  attempted : List String
deriving DecidableEq

/-- The model loop of `tryProvider` (chat_handler.ts lines 71–92).
`adapter key model` is the observed behaviour of
`createServiceWithModel(key, model)` plus `service.chat(messages)` for the
request's messages.  A throw from creation records `lastError`; a `null`
from `tryModel` does not; when fallback is disabled the loop breaks after
the first model. -/
def tryProviderGo (adapter : String → String → AdapterOutcome)
    (p : ActiveProvider) : List String → Option String → TryProviderOutcome
  | [], lastErr => ⟨none, lastErr, []⟩
  | m :: rest, lastErr =>
      match adapter p.key m with
      | .createFail e =>
          if p.enableFallback then
            let o := tryProviderGo adapter p rest (some e)
            ⟨o.result, o.lastError, m :: o.attempted⟩
          else ⟨none, some e, [m]⟩
      | .ok b =>
          match tryModel p.name m p.key b with
          | some r => ⟨some r, none, [m]⟩
          | none =>
              if p.enableFallback then
                let o := tryProviderGo adapter p rest lastErr
                ⟨o.result, o.lastError, m :: o.attempted⟩
              else ⟨none, lastErr, [m]⟩

/-- Embeds `tryProvider` (chat_handler.ts lines 60–95). -/
def tryProvider (adapter : String → String → AdapterOutcome)
    (p : ActiveProvider) : TryProviderOutcome :=
  tryProviderGo adapter p (modelsToTry p) none

/-- Outcome of a whole dispatch: the chosen provider index and result on
success, the last recorded error, and the value of the round-robin
counter `currentProviderIndex` after the call. -/
structure DispatchOutcome where
  result : Option (Nat × ChatResult)
  lastError : Option String
  nextIndex : Nat
deriving DecidableEq

/-- The provider loop of `handleChat` (chat_handler.ts lines 133–152):
`i` counts loop iterations, `remaining` the iterations left; the index
accessed is `(start + i) % providers.length` and a missing entry is
skipped (`if (!provider) continue`). -/
def handleChatGo (adapter : String → String → AdapterOutcome)
    (providers : List ActiveProvider) (start : Nat) :
    Nat → Nat → Option String → Option (Nat × ChatResult) × Option String
  | _, 0, lastErr => (none, lastErr)
  | i, remaining + 1, lastErr =>
      let pidx := (start + i) % providers.length
      match providers[pidx]? with
      | none => handleChatGo adapter providers start (i + 1) remaining lastErr
      | some p =>
          let o := tryProvider adapter p
          match o.result with
          | some r => (some (pidx, r), none)
          | none =>
              handleChatGo adapter providers start (i + 1) remaining
                (match o.lastError with
                 | some e => some e
                 | none => lastErr)

/-- Embeds `handleChat` (chat_handler.ts lines 119–155).  With no providers the
function throws before touching the counter.  Otherwise the counter is
first normalised to `currentProviderIndex % providers.length`; on success
at provider index `pidx` it becomes `(pidx + 1) % providers.length`; on
full failure it keeps the normalised value. -/
def handleChat (adapter : String → String → AdapterOutcome)
    (providers : List ActiveProvider) (currentProviderIndex : Nat) :
    DispatchOutcome :=
  if providers.length = 0 then ⟨none, none, currentProviderIndex⟩
  else
    let start := currentProviderIndex % providers.length
    match handleChatGo adapter providers start 0 providers.length none with
    | (some (pidx, r), _) => ⟨some (pidx, r), none, (pidx + 1) % providers.length⟩
    | (none, lastErr) => ⟨none, lastErr, start⟩

/-! ## Embedding of the models configuration service
(the `ModelsConfigError` / `reorderModels` module bundled in
src/services/ollama_client.ts) -/

/-- Embeds `ProviderModelConfig` from the models configuration module. -/
structure ProviderModelConfig where
  default : String
  enableFallback : Bool
  models : List String
deriving DecidableEq

/-- The models.json document: a JSON object mapping provider keys to
their configuration, kept as an association list in key order. -/
def ModelsConfig := List (String × ProviderModelConfig)

instance : DecidableEq ModelsConfig :=
  inferInstanceAs (DecidableEq (List (String × ProviderModelConfig)))

/-- Lookup `config[providerKey]`. -/
def lookupProvider (config : ModelsConfig) (providerKey : String) :
    Option ProviderModelConfig :=
  (config.find? (fun e => e.1 == providerKey)).map (fun e => e.2)

/-- Embeds `config[providerKey].models = newModels` on the object. -/
def setProviderModels (config : ModelsConfig) (providerKey : String)
    (newModels : List String) : ModelsConfig :=
  config.map (fun e =>
    if e.1 = providerKey then (e.1, { e.2 with models := newModels }) else e)

/-- Embeds `validateProviderConfig` (value-level checks; the `typeof` checks of
the source are enforced by the types of the embedding). -/
def validateProviderConfig (providerKey : String) (config : ProviderModelConfig) :
    Except String Unit :=
  if !(nonBlank config.default) then
    .error ("Provider " ++ providerKey ++ ": default must be a non-empty string")
  else if config.models.length = 0 then
    .error ("Provider " ++ providerKey ++ ": models must have at least one model")
  else if config.models.any (fun m => !(nonBlank m)) then
    .error ("Provider " ++ providerKey ++ ": all models must be non-empty strings")
  else if config.default ∈ config.models then .ok ()
  else
    .error ("Provider " ++ providerKey ++ ": default model must be in models list")

/-- Embeds `validateModelsConfig`. -/
def validateModelsConfig (config : ModelsConfig) : Except String Unit :=
  if config.length = 0 then .error "Config must have at least one provider"
  else config.forM (fun e => validateProviderConfig e.1 e.2)

/-- Embeds `saveModelsConfig`: validate, then atomically replace the on-disk
JSON.  `ok` carries the newly persisted snapshot; `error` means nothing
was written. -/
def saveModelsConfig (config : ModelsConfig) : Except String ModelsConfig := do
  validateModelsConfig config
  pure config

/-- Embeds `reorderModels(providerKey, newOrder)` (length check, membership
check, then save of the updated object). -/
def reorderModels (config : ModelsConfig) (providerKey : String)
    (newOrder : List String) : Except String ModelsConfig :=
  match lookupProvider config providerKey with
  | none => .error ("Provider " ++ providerKey ++ " not found")
  | some pc =>
      if newOrder.length ≠ pc.models.length then
        .error "New order must contain same number of models"
      else
        match newOrder.find? (fun m => !(pc.models.contains m)) with
        | some m => .error ("Model " ++ m ++ " not found in current models")
        | none => saveModelsConfig (setProviderModels config providerKey newOrder)

/-! ## Embedding of the provider registry (src/unnamed/part_015:
`tryGetProviderSettings`, `hasApiKey`, `buildActiveServices`) -/

/-- A provider descriptor from `defaults/providers.ts`. -/
structure ProviderDescriptor where
  name : String
  apiKeyName : String
deriving DecidableEq

/-- A `provider_settings` row as read by `tryGetProviderSettings`. -/
structure ProviderSetting where
  provider_key : String
  is_enabled : Int
  priority : Int
deriving DecidableEq

/-- The intermediate entry built by `buildActiveServices`. -/
structure ProviderEntry where
  key : String
  name : String
  hasKey : Bool
  isEnabled : Bool
  priority : Int
deriving DecidableEq

/-- Embeds `hasApiKey(providerKey)`: the provider is known and the value of its
API-key environment variable is set and non-empty after trim. -/
def hasApiKey (table : List (String × ProviderDescriptor))
    (env : String → Option String) (providerKey : String) : Bool :=
  match table.find? (fun e => e.1 == providerKey) with
  | none => false
  | some e =>
      match env e.2.apiKeyName with
      | none => false
      | some v => decide (v ≠ "") && nonBlank v

/-- Stable ascending insertion by `priority` (JavaScript's
`sort((a, b) => a.priority - b.priority)` is required to be a stable sort
ascending in the comparator, which a stable insertion sort realises). -/
def insertByPriority (a : ProviderEntry) : List ProviderEntry → List ProviderEntry
  | [] => [a]
  | b :: l => if a.priority ≤ b.priority then a :: b :: l
              else b :: insertByPriority a l

/-- Stable sort of entries by ascending priority. -/
def sortByPriority : List ProviderEntry → List ProviderEntry
  | [] => []
  | a :: l => insertByPriority a (sortByPriority l)

/-- Embeds `buildActiveServices` (src/unnamed/part_015 lines 81–109), up to the
construction of the provider entries: map each known provider to an entry
(looking up its setting; enabled by default and priority 999 when there
is no setting), keep those with a key and enabled, sort by priority. -/
def buildActiveEntries (table : List (String × ProviderDescriptor))
    (settings : Option (List ProviderSetting))
    (env : String → Option String) : List ProviderEntry :=
  sortByPriority
    ((table.map (fun e =>
        let setting := settings.bind (fun ss =>
          ss.find? (fun s => s.provider_key == e.1))
        { key := e.1
          name := e.2.name
          hasKey := hasApiKey table env e.1
          isEnabled := match setting with
            | some s => s.is_enabled == 1
            | none => true
          priority := match setting with
            | some s => s.priority
            | none => 999 : ProviderEntry })).filter
      (fun p => p.hasKey && p.isEnabled))

/-! ## Embedding of the OpenAI SSE formatter (src/unnamed/part_005) -/

/-- The `delta` object of an OpenAI streaming chunk choice. -/
structure OpenAIDelta where
  role : Option String
  content : Option String
deriving DecidableEq

/-- A choice of an OpenAI streaming chunk. -/
structure OpenAIChoice where
  index : Nat
  delta : OpenAIDelta
  finish_reason : Option String
deriving DecidableEq

/-- Embeds `OpenAIChatCompletionChunk`. -/
structure OpenAIChunk where
  id : String
  object : String
  created : Nat
  model : String
  choices : List OpenAIChoice
deriving DecidableEq

/-- One SSE frame of the OpenAI stream: a `data: <json>` frame or the
literal `data: [DONE]` terminator. -/
inductive OpenAIStreamItem where
  | data (c : OpenAIChunk)
  | done
deriving DecidableEq

/-- The content chunk built inside the `for await` loop of
`formatOpenAIStream`: the first emitted frame carries
`{role: "assistant", content}`, later frames `{content}` only. -/
def contentChunk (id : String) (created : Nat) (model : String)
    (isFirst : Bool) (content : String) : OpenAIChunk :=
  { id := id, object := "chat.completion.chunk", created := created,
    model := model,
    choices := [{ index := 0,
                  delta := if isFirst then ⟨some "assistant", some content⟩
                           else ⟨none, some content⟩,
                  finish_reason := none }] }

/-- The final chunk of `formatOpenAIStream` (empty delta,
`finish_reason: "stop"`). -/
def finalChunk (id : String) (created : Nat) (model : String) : OpenAIChunk :=
  { id := id, object := "chat.completion.chunk", created := created,
    model := model,
    choices := [{ index := 0, delta := ⟨none, none⟩,
                  finish_reason := some "stop" }] }

/-- The loop of `formatOpenAIStream` (src/unnamed/part_005 lines 58–95):
a frame is emitted only for truthy (non-empty) chunks; `isFirst` flips
after the first emitted frame; then the final chunk and `[DONE]`. -/
def formatOpenAIStreamGo (id : String) (created : Nat) (model : String) :
    List String → Bool → List OpenAIStreamItem
  | [], _ => [.data (finalChunk id created model), .done]
  | c :: rest, isFirst =>
      if c ≠ "" then
        .data (contentChunk id created model isFirst c) ::
          formatOpenAIStreamGo id created model rest false
      else formatOpenAIStreamGo id created model rest isFirst

/-- Embeds `formatOpenAIStream` (src/unnamed/part_005 lines 48–96); the random
`id` and the `created` timestamp are environment inputs of the model. -/
def formatOpenAIStream (id : String) (created : Nat) (model : String)
    (input : List String) : List OpenAIStreamItem :=
  formatOpenAIStreamGo id created model input true

/-! ## Embedding of the Anthropic SSE formatter (the
`formatAnthropicStream` module bundled in src/cli/providers.ts) -/

/-- The SSE events emitted by `formatAnthropicStream`, with the data that
varies between frames. -/
inductive AnthropicEvent where
  | messageStart (msgId model : String)
  | contentBlockStart
  | contentBlockDelta (text : String)
  | contentBlockStop
  | messageDelta (outputTokens : Nat)
  | messageStop
deriving DecidableEq

/-- The delta loop and trailer of `formatAnthropicStream`: one
`content_block_delta` per truthy chunk, the running token counter adds
`ceil(len/4)` per emitted chunk, then `content_block_stop`,
`message_delta` and `message_stop`. -/
def formatAnthropicStreamGo : List String → Nat → List AnthropicEvent
  | [], outputTokens =>
      [.contentBlockStop, .messageDelta outputTokens, .messageStop]
  | c :: rest, outputTokens =>
      if c ≠ "" then
        .contentBlockDelta c ::
          formatAnthropicStreamGo rest (outputTokens + (c.length + 3) / 4)
      else formatAnthropicStreamGo rest outputTokens

/-- Embeds `formatAnthropicStream` (src/cli/providers.ts lines 185–260):
`message_start`, `content_block_start`, then the delta loop. -/
def formatAnthropicStream (msgId model : String) (input : List String) :
    List AnthropicEvent :=
  .messageStart msgId model :: .contentBlockStart ::
    formatAnthropicStreamGo input 0

/-! ## Embedding of src/db/api_keys.ts -/

/-- An `api_keys` row (`is_active` is the SQLite 0/1 integer). -/
structure ApiKey where
  id : Nat
  key_hash : String
  key_prefix : String
  name : Option String
  created_at : String
  last_used_at : Option String
  is_active : Nat
  usage_count : Nat
deriving DecidableEq

/-- Embeds `generateApiKey`: "sk-" followed by the hex encoding of 32 random
bytes (the randomness is an input of the model). -/
def generateApiKey (randomHex : String) : String := "sk-" ++ randomHex

/-- Embeds `createApiKey` (api_keys.ts lines 46–60): hash the fresh key, store
only hash, display prefix and metadata (`is_active` defaults to 1 and
`usage_count` to 0 per the migration), return the plaintext key and the
inserted row.  `hash` models SHA-256, `newId` the AUTOINCREMENT id and
`now` the row timestamp. -/
def createApiKey (hash : String → String) (randomHex : String)
    (name : Option String) (newId : Nat) (now : String)
    (store : List ApiKey) : String × ApiKey × List ApiKey :=
  let key := generateApiKey randomHex
  let record : ApiKey :=
    { id := newId, key_hash := hash key, key_prefix := strTake key 7 ++ "...",
      name := name, created_at := now, last_used_at := none,
      is_active := 1, usage_count := 0 }
  (key, record, store ++ [record])

/-- Embeds `validateApiKey` (api_keys.ts lines 66–90): cheap reject of keys not
starting with "sk-"; otherwise hash and look up an active row; when found,
update `last_used_at` and `usage_count` on that row (the returned record
is the row as fetched, before the update). -/
def validateApiKey (hash : String → String) (now : String)
    (store : List ApiKey) (key : String) : Option ApiKey × List ApiKey :=
  if key = "" ∨ strStarts key "sk-" = false then (none, store)
  else
    match store.find? (fun r => r.key_hash == hash key && r.is_active == 1) with
    | none => (none, store)
    | some r =>
        (some r,
         store.map (fun x =>
           if x.id = r.id then
             { x with last_used_at := some now,
                      usage_count := x.usage_count + 1 }
           else x))

/-- Embeds `revokeApiKey` (api_keys.ts lines 108–114): set `is_active = 0` on
the row with the given id; returns whether a row changed, and the table
afterwards. -/
def revokeApiKey (store : List ApiKey) (id : Nat) : Bool × List ApiKey :=
  (store.any (fun r => r.id == id),
   store.map (fun r => if r.id = id then { r with is_active := 0 } else r))

/-! ## Embedding of the auth middleware public-path check
(the module bundled in src/unnamed/part_013) -/

/-- Embeds `PUBLIC_PATHS`. -/
def PUBLIC_PATHS : List String := ["/health", "/v1/models"]

/-- Embeds `requiresAuth(pathname)` (part_013 lines 248–260). -/
def requiresAuth (pathname : String) : Bool :=
  if pathname ∈ PUBLIC_PATHS then false
  else if strStarts pathname "/v1/models/" then false
  else true

/-! ## Embedding of the Anthropic messages route (src/unnamed/part_011) -/

/-- A content block of an Anthropic message. -/
structure ContentBlock where
  type : String
  text : String
deriving DecidableEq

/-- Embeds `content` of an inbound Anthropic message: plain string or a list of
blocks. -/
inductive ContentValue where
  | str (s : String)
  | blocks (bs : List ContentBlock)
deriving DecidableEq

/-- An inbound Anthropic message. -/
structure AnthropicMessageIn where
  role : String
  content : ContentValue
deriving DecidableEq

/-- The fields of `AnthropicMessageRequest` that the handler inspects.
`Option` marks fields that may be absent from the JSON body;
`max_tokens` is an integer when present. -/
structure AnthropicMessageRequest where
  model : Option String
  messages : Option (List AnthropicMessageIn)
  system : Option ContentValue
  max_tokens : Option Int
  stream : Option Bool
deriving DecidableEq

/-- Embeds `extractContent`: a plain string passes through; from a block list
only `type = "text"` blocks are kept and their texts joined with
newlines. -/
def extractContent : ContentValue → String
  | .str s => s
  | .blocks bs =>
      String.intercalate "\n"
        ((bs.filter (fun b => b.type == "text")).map (fun b => b.text))

/-- Truthiness of `body.system` (`if (body.system)`): absent or the empty
string is falsy, any block list (even empty) is truthy. -/
def systemTruthy : Option ContentValue → Bool
  | none => false
  | some (.str s) => s ≠ ""
  | some (.blocks _) => true

/-- Embeds `convertMessages` (part_011 lines 51–75). -/
def convertMessages (system : Option ContentValue)
    (msgs : List AnthropicMessageIn) : List ChatMessage :=
  (if systemTruthy system then
     match system with
     | some sysv => [{ role := "system", content := extractContent sysv }]
     | none => []
   else []) ++
  msgs.map (fun m => { role := m.role, content := extractContent m.content })

/-- Outcome of `handleMessages` up to the dispatch call: either a 400
`invalid_request_error` response, or the converted messages together with
the streaming flag and model handed on to `handleChat` and the
formatters. -/
inductive MessagesResponse where
  | badRequest (errType errMessage : String)
  | dispatch (messages : List ChatMessage) (shouldStream : Bool) (model : String)
deriving DecidableEq

/-- The validation and conversion phase of `handleMessages` (part_011
lines 81–106): missing/non-array `messages` is rejected; a falsy
`max_tokens` (absent or 0) is rejected with "max_tokens is required";
otherwise the request proceeds to dispatch with
`shouldStream = (stream === true)` and `model = body.model || "aicarousel"`. -/
def handleMessages (body : AnthropicMessageRequest) : MessagesResponse :=
  match body.messages with
  | none => .badRequest "invalid_request_error" "messages is required and must be an array"
  | some msgs =>
      if body.max_tokens = none ∨ body.max_tokens = some 0 then
        .badRequest "invalid_request_error" "max_tokens is required"
      else
        .dispatch (convertMessages body.system msgs)
          (body.stream == some true)
          (match body.model with
           | none => "aicarousel"
           | some m => if m = "" then "aicarousel" else m)

/-! ## Specification-side helper definitions -/

/-- Expected content frames of the OpenAI stream for the list of emitted
(non-empty) chunks: the first frame carries the role, later frames the
content only. -/
def openAIContentFrames (id : String) (created : Nat) (model : String) :
    List String → List OpenAIStreamItem
  | [] => []
  | c :: rest =>
      .data (contentChunk id created model true c) ::
        rest.map (fun x => .data (contentChunk id created model false x))

/-- Whether a provider key has a persisted settings row. -/
def hasSetting (settings : List ProviderSetting) (k : String) : Bool :=
  (settings.find? (fun s => s.provider_key == k)).isSome

/-! ## Theorems -/

/-- Helper: in a successful dispatch loop the next index is set from the
chosen index; on exhaustion the counter keeps the normalised start. -/
theorem handleChat_eq (adapter : String → String → AdapterOutcome)
    (providers : List ActiveProvider) (idx : Nat)
    (h : providers.length ≠ 0) :
    handleChat adapter providers idx =
      match handleChatGo adapter providers (idx % providers.length) 0
          providers.length none with
      | (some (pidx, r), _) =>
          ⟨some (pidx, r), none, (pidx + 1) % providers.length⟩
      | (none, lastErr) => ⟨none, lastErr, idx % providers.length⟩ := by
  unfold handleChat
  rw [if_neg h]

/-- C1 counterexample: an upstream whose first chunk is the empty string
is not treated as a failure — `tryModel` returns a `ChatResult` whose
stream begins with the empty chunk, contradicting the claim that such an
attempt fails and that the caller is never handed a stream whose first
chunk is empty. -/
theorem tryModel_emptyFirstChunk_accepted :
    tryModel "Cerebras" "m1" "cerebras" (.chunks [""]) =
      some { stream := [""], serviceName := "Cerebras", model := "m1",
             providerKey := "cerebras" } := rfl

/-- C1 (amended): a `ChatResult` is returned exactly when the first
iterator step yields a value: a first step that errors or signals
end-of-stream makes the attempt fail (so fallback proceeds), and on
success the caller's stream begins with the observed first chunk — which
may be the empty string. -/
theorem tryModel_firstStep_validation (serviceName model providerKey : String) :
    (∀ e, tryModel serviceName model providerKey (.firstFail e) = none) ∧
    tryModel serviceName model providerKey (.chunks []) = none ∧
    (∀ first rest,
        tryModel serviceName model providerKey (.chunks (first :: rest)) =
          some { stream := first :: rest, serviceName := serviceName,
                 model := model, providerKey := providerKey }) :=
  ⟨fun _ => rfl, rfl, fun _ _ => rfl⟩

/-- C8: a path is exempt from authentication exactly when it is
"/health", is "/v1/models", or begins with "/v1/models/"; every other
path requires auth. -/
theorem requiresAuth_public_paths (pathname : String) :
    requiresAuth pathname = false ↔
      pathname = "/health" ∨ pathname = "/v1/models" ∨
        strStarts pathname "/v1/models/" = true := by
  unfold requiresAuth PUBLIC_PATHS
  by_cases h1 : pathname ∈ ["/health", "/v1/models"]
  · rw [if_pos h1]
    simp only [List.mem_cons, List.not_mem_nil, or_false] at h1
    rcases h1 with h | h <;> simp [h]
  · rw [if_neg h1]
    simp only [List.mem_cons, List.not_mem_nil, or_false, not_or] at h1
    obtain ⟨hne1, hne2⟩ := h1
    by_cases h2 : strStarts pathname "/v1/models/" = true
    · rw [if_pos h2]
      simp [h2, hne1, hne2]
    · rw [if_neg h2]
      simp [h2, hne1, hne2]

/-- C9: a POST /v1/messages body carrying `max_tokens = 0` is rejected
with a 400 `invalid_request_error` saying max_tokens is required, exactly
as when the field is absent, because the falsy-presence check treats 0 as
missing. -/
theorem handleMessages_maxTokensZero (body : AnthropicMessageRequest)
    (msgs : List AnthropicMessageIn) (hm : body.messages = some msgs)
    (hz : body.max_tokens = some 0) :
    handleMessages body =
      .badRequest "invalid_request_error" "max_tokens is required" ∧
    handleMessages body = handleMessages { body with max_tokens := none } := by
  unfold handleMessages
  simp [hm, hz]

/-- Witness for C9 at a concrete request body. -/
theorem handleMessages_maxTokensZero_witness :
    handleMessages ⟨none, some [⟨"user", .str "hi"⟩], none, some 0, none⟩ =
      .badRequest "invalid_request_error" "max_tokens is required" :=
  (handleMessages_maxTokensZero _ [⟨"user", .str "hi"⟩] rfl rfl).1

/-- C2: for a dispatch over a non-empty provider list starting at
`idx % N`: a success that chose the provider at index `c` leaves the
round-robin counter at `(c + 1) % N`; a fully failed dispatch leaves the
counter at the starting index (so the next dispatch reuses it), and when
the stored counter was already in bounds it is unchanged. -/
theorem handleChat_roundRobin (adapter : String → String → AdapterOutcome)
    (providers : List ActiveProvider) (idx : Nat) (h : providers ≠ []) :
    (∀ c r, (handleChat adapter providers idx).result = some (c, r) →
        (handleChat adapter providers idx).nextIndex =
          (c + 1) % providers.length) ∧
    ((handleChat adapter providers idx).result = none →
        (handleChat adapter providers idx).nextIndex =
            idx % providers.length ∧
          (idx < providers.length →
            (handleChat adapter providers idx).nextIndex = idx)) := by
  have hlen : providers.length ≠ 0 := fun hl => h (List.length_eq_zero.mp hl)
  rw [handleChat_eq adapter providers idx hlen]
  rcases hgo : handleChatGo adapter providers (idx % providers.length) 0
      providers.length none with ⟨ores, le⟩
  cases ores with
  | none =>
      refine ⟨fun c r hres => by simp at hres, fun _ => ⟨rfl, fun hlt => ?_⟩⟩
      exact Nat.mod_eq_of_lt hlt
  | some pr =>
      obtain ⟨pidx, r0⟩ := pr
      refine ⟨fun c r hres => ?_, fun hres => by simp at hres⟩
      simp only [Option.some.injEq, Prod.mk.injEq] at hres
      obtain ⟨hres1, -⟩ := hres
      simp [hres1]

/-- Witness for C2 at a concrete dispatch: two providers, the first one
fails, the second succeeds, so the counter advances to `(1 + 1) % 2 = 0`. -/
theorem handleChat_roundRobin_witness :
    (handleChat
        (fun k _ => if k = "cerebras" then .createFail "boom"
                    else .ok (.chunks ["x"]))
        [⟨"cerebras", "Cerebras", ["m1"], "m1", true, 1⟩,
         ⟨"groq", "Groq", ["g1"], "g1", true, 2⟩] 0).result =
      some (1, ⟨["x"], "Groq", "g1", "groq"⟩) ∧
    (handleChat
        (fun k _ => if k = "cerebras" then .createFail "boom"
                    else .ok (.chunks ["x"]))
        [⟨"cerebras", "Cerebras", ["m1"], "m1", true, 1⟩,
         ⟨"groq", "Groq", ["g1"], "g1", true, 2⟩] 0).nextIndex = 0 := by
  refine ⟨by decide, ?_⟩
  have h2 := (handleChat_roundRobin
      (fun k _ => if k = "cerebras" then .createFail "boom"
                  else .ok (.chunks ["x"]))
      [⟨"cerebras", "Cerebras", ["m1"], "m1", true, 1⟩,
       ⟨"groq", "Groq", ["g1"], "g1", true, 2⟩] 0 (by decide)).1 1
      ⟨["x"], "Groq", "g1", "groq"⟩ (by decide)
  rw [h2]
  decide

/-- Helper: the list of models attempted by the `tryProvider` loop is an
initial segment of the candidate list (the loop walks it in order and
stops early on success or when fallback is disabled). -/
theorem tryProviderGo_attempted_take (adapter : String → String → AdapterOutcome)
    (p : ActiveProvider) (l : List String) (lastErr : Option String) :
    ∃ k, (tryProviderGo adapter p l lastErr).attempted = l.take k := by
  induction l generalizing lastErr with
  | nil => exact ⟨0, rfl⟩
  | cons m rest ih =>
      rcases hA : adapter p.key m with e | b
      · by_cases hf : p.enableFallback
        · obtain ⟨k, hk⟩ := ih (some e)
          exact ⟨k + 1, by simp [tryProviderGo, hA, hf, hk]⟩
        · exact ⟨1, by simp [tryProviderGo, hA, hf]⟩
      · rcases hT : tryModel p.name m p.key b with _ | r
        · by_cases hf : p.enableFallback
          · obtain ⟨k, hk⟩ := ih lastErr
            exact ⟨k + 1, by simp [tryProviderGo, hA, hT, hf, hk]⟩
          · exact ⟨1, by simp [tryProviderGo, hA, hT, hf]⟩
        · exact ⟨1, by simp [tryProviderGo, hA, hT]⟩

/-- C4: the models attempted for a provider are an initial segment of the
candidate order; with fallback disabled the candidate order is just the
default model (so at most one model is attempted); with fallback enabled
it is the default followed by the remaining configured models in list
order with the default excluded; and when the configured models have no
duplicates each model occurs at most once in the candidate order. -/
theorem tryProvider_modelOrder (adapter : String → String → AdapterOutcome)
    (p : ActiveProvider) :
    (∃ k, (tryProvider adapter p).attempted = (modelsToTry p).take k) ∧
    (p.enableFallback = false → modelsToTry p = [p.defaultModel]) ∧
    (p.enableFallback = true →
      modelsToTry p =
        p.defaultModel :: p.models.filter (fun m => m ≠ p.defaultModel)) ∧
    (p.models.Nodup → (modelsToTry p).Nodup) := by
  refine ⟨tryProviderGo_attempted_take adapter p (modelsToTry p) none,
    fun hf => by simp [modelsToTry, hf],
    fun hf => by simp [modelsToTry, hf, getOrderedModels],
    fun hnd => ?_⟩
  unfold modelsToTry
  by_cases hf : p.enableFallback
  · rw [if_pos hf]
    unfold getOrderedModels
    refine List.nodup_cons.mpr ⟨fun hmem => ?_, hnd.filter _⟩
    have := (List.mem_filter.mp hmem).2
    simp at this
  · rw [if_neg hf]
    simp

/-- Witness for C4 at a concrete provider with and without fallback. -/
theorem tryProvider_modelOrder_witness :
    modelsToTry ⟨"c", "C", ["a", "b"], "a", false, 1⟩ = ["a"] ∧
    modelsToTry ⟨"c", "C", ["a", "b"], "a", true, 1⟩ =
      "a" :: ["a", "b"].filter (fun m => m ≠ "a") ∧
    List.Nodup (modelsToTry ⟨"c", "C", ["a", "b"], "a", true, 1⟩) :=
  ⟨(tryProvider_modelOrder (fun _ _ => .ok (.chunks ["x"]))
      ⟨"c", "C", ["a", "b"], "a", false, 1⟩).2.1 rfl,
   (tryProvider_modelOrder (fun _ _ => .ok (.chunks ["x"]))
      ⟨"c", "C", ["a", "b"], "a", true, 1⟩).2.2.1 rfl,
   (tryProvider_modelOrder (fun _ _ => .ok (.chunks ["x"]))
      ⟨"c", "C", ["a", "b"], "a", true, 1⟩).2.2.2 (by decide)⟩

/-- Helper: once the first content frame has been emitted, the rest of
the OpenAI stream is one content-only frame per non-empty chunk followed
by the final frame and the terminator. -/
theorem formatOpenAIStreamGo_false (id : String) (created : Nat) (model : String)
    (l : List String) :
    formatOpenAIStreamGo id created model l false =
      (l.filter (fun c => c ≠ "")).map
          (fun x => .data (contentChunk id created model false x)) ++
        [.data (finalChunk id created model), .done] := by
  induction l with
  | nil => rfl
  | cons c rest ih =>
      by_cases hc : c = "" <;> simp [formatOpenAIStreamGo, hc, ih]

/-- Helper: the whole OpenAI stream is the expected content frames for
the non-empty chunks followed by the final frame and the terminator. -/
theorem formatOpenAIStreamGo_true (id : String) (created : Nat) (model : String)
    (l : List String) :
    formatOpenAIStreamGo id created model l true =
      openAIContentFrames id created model (l.filter (fun c => c ≠ "")) ++
        [.data (finalChunk id created model), .done] := by
  induction l with
  | nil => rfl
  | cons c rest ih =>
      by_cases hc : c = ""
      · simp [formatOpenAIStreamGo, hc, ih]
      · simp [formatOpenAIStreamGo, hc, formatOpenAIStreamGo_false,
          openAIContentFrames]

/-- Helper: the delta section of the Anthropic stream is one delta per
non-empty chunk, then the block stop, the message delta (with the final
token counter) and the message stop. -/
theorem formatAnthropicStreamGo_eq (l : List String) (tok : Nat) :
    ∃ T, formatAnthropicStreamGo l tok =
      (l.filter (fun c => c ≠ "")).map
          (fun c => AnthropicEvent.contentBlockDelta c) ++
        [.contentBlockStop, .messageDelta T, .messageStop] := by
  induction l generalizing tok with
  | nil => exact ⟨tok, rfl⟩
  | cons c rest ih =>
      by_cases hc : c = ""
      · obtain ⟨T, hT⟩ := ih tok
        exact ⟨T, by simp [formatAnthropicStreamGo, hc, hT]⟩
      · obtain ⟨T, hT⟩ := ih (tok + (c.length + 3) / 4)
        exact ⟨T, by simp [formatAnthropicStreamGo, hc, hT]⟩

/-- Helper: the terminator never occurs among the expected content
frames. -/
theorem count_done_openAIContentFrames (id : String) (created : Nat)
    (model : String) (l : List String) :
    (openAIContentFrames id created model l).count OpenAIStreamItem.done = 0 := by
  rw [List.count_eq_zero]
  cases l with
  | nil => simp [openAIContentFrames]
  | cons c rest => simp [openAIContentFrames]

/-- C6: the OpenAI streaming translator emits exactly the content frames
for the non-empty chunks (the first with `{role: "assistant", content}`,
the rest with `{content}` only, per `openAIContentFrames` and
`contentChunk`), then one final frame with an empty delta and
`finish_reason: "stop"`, then exactly one `data: [DONE]` terminator as
the last item; the Anthropic streaming translator emits exactly one
`message_stop`, as the last event. -/
theorem streamTerminators (id : String) (created : Nat) (model msgId : String)
    (input : List String) :
    formatOpenAIStream id created model input =
      openAIContentFrames id created model (input.filter (fun c => c ≠ "")) ++
        [.data (finalChunk id created model), .done] ∧
    (formatOpenAIStream id created model input).count .done = 1 ∧
    (formatOpenAIStream id created model input).getLast? = some .done ∧
    (formatAnthropicStream msgId model input).count .messageStop = 1 ∧
    (formatAnthropicStream msgId model input).getLast? = some .messageStop := by
  refine ⟨formatOpenAIStreamGo_true id created model input, ?_, ?_, ?_, ?_⟩
  · rw [formatOpenAIStream, formatOpenAIStreamGo_true, List.count_append,
      count_done_openAIContentFrames]
    rfl
  · rw [formatOpenAIStream, formatOpenAIStreamGo_true,
      show [OpenAIStreamItem.data (finalChunk id created model),
            OpenAIStreamItem.done] =
        OpenAIStreamItem.data (finalChunk id created model) ::
          [OpenAIStreamItem.done] from rfl,
      List.getLast?_append_cons]
    rfl
  · obtain ⟨T, hT⟩ := formatAnthropicStreamGo_eq input 0
    rw [formatAnthropicStream, hT]
    rw [List.count_cons, List.count_cons, List.count_append]
    have hmap : ((input.filter (fun c => c ≠ "")).map
        (fun c => AnthropicEvent.contentBlockDelta c)).count
          AnthropicEvent.messageStop = 0 := by
      rw [List.count_eq_zero]
      simp
    rw [hmap]
    rfl
  · obtain ⟨T, hT⟩ := formatAnthropicStreamGo_eq input 0
    rw [formatAnthropicStream, hT,
      show (AnthropicEvent.messageStart msgId model ::
          AnthropicEvent.contentBlockStart ::
            ((input.filter (fun c => c ≠ "")).map
                (fun c => AnthropicEvent.contentBlockDelta c) ++
              [AnthropicEvent.contentBlockStop, AnthropicEvent.messageDelta T,
               AnthropicEvent.messageStop])) =
        (AnthropicEvent.messageStart msgId model ::
          AnthropicEvent.contentBlockStart ::
            (input.filter (fun c => c ≠ "")).map
              (fun c => AnthropicEvent.contentBlockDelta c)) ++
          (AnthropicEvent.contentBlockStop ::
            [AnthropicEvent.messageDelta T, AnthropicEvent.messageStop])
        from by simp,
      List.getLast?_append_cons]
    rfl

/-- C10: when every chunk of the upstream run is the empty string, the
OpenAI translator emits no content frame at all: the output is exactly
the final empty-delta stop frame followed by the terminator. -/
theorem formatOpenAIStream_allEmpty (id : String) (created : Nat)
    (model : String) (input : List String) (h : ∀ c ∈ input, c = "") :
    formatOpenAIStream id created model input =
      [.data (finalChunk id created model), .done] := by
  have hfilter : input.filter (fun c => c ≠ "") = [] := by
    rw [List.filter_eq_nil_iff]
    intro c hc
    simp [h c hc]
  rw [formatOpenAIStream, formatOpenAIStreamGo_true, hfilter]
  rfl

/-- Witness for C10 at a concrete all-empty input. -/
theorem formatOpenAIStream_allEmpty_witness :
    formatOpenAIStream "id0" 0 "aicarousel" ["", ""] =
      [.data (finalChunk "id0" 0 "aicarousel"), .done] :=
  formatOpenAIStream_allEmpty "id0" 0 "aicarousel" ["", ""] (by decide)

/-- C3: evaluation at the failing input.  `reorderModels` checks only
the length of `newOrder` and that each of its members is a current model,
so the duplicate-containing order `["a", "a"]` (default "a", current
models `["a", "b"]`) passes both checks and also passes the save-time
validation (which has no duplicate check and still finds the default in
the list); the persisted configuration changes to `["a", "a"]`, silently
dropping model "b", instead of being rejected with a `ConfigError`. -/
theorem reorderModels_duplicates_accepted :
    reorderModels [("cerebras", ⟨"a", true, ["a", "b"]⟩)] "cerebras" ["a", "a"] =
      .ok [("cerebras", ⟨"a", true, ["a", "a"]⟩)] := rfl

/-- Helper: membership in a priority insertion. -/
theorem mem_insertByPriority {x a : ProviderEntry} {l : List ProviderEntry} :
    x ∈ insertByPriority a l ↔ x = a ∨ x ∈ l := by
  induction l with
  | nil => simp [insertByPriority]
  | cons b t ih =>
      unfold insertByPriority
      by_cases h : a.priority ≤ b.priority
      · rw [if_pos h]
        simp [List.mem_cons]
      · rw [if_neg h]
        simp only [List.mem_cons, ih]
        tauto

/-- Helper: the priority sort does not change membership. -/
theorem mem_sortByPriority {x : ProviderEntry} {l : List ProviderEntry} :
    x ∈ sortByPriority l ↔ x ∈ l := by
  induction l with
  | nil => simp [sortByPriority]
  | cons a t ih =>
      unfold sortByPriority
      rw [mem_insertByPriority]
      simp [ih]

/-- Helper: inserting into a priority-sorted list keeps it sorted. -/
theorem pairwise_insertByPriority {a : ProviderEntry} {l : List ProviderEntry}
    (hl : l.Pairwise (fun x y => x.priority ≤ y.priority)) :
    (insertByPriority a l).Pairwise (fun x y => x.priority ≤ y.priority) := by
  induction l with
  | nil => simp [insertByPriority]
  | cons b t ih =>
      obtain ⟨hb, ht⟩ := List.pairwise_cons.mp hl
      unfold insertByPriority
      by_cases h : a.priority ≤ b.priority
      · rw [if_pos h]
        refine List.pairwise_cons.mpr ⟨?_, hl⟩
        intro y hy
        rcases List.mem_cons.mp hy with rfl | hy2
        · exact h
        · exact le_trans h (hb y hy2)
      · rw [if_neg h]
        refine List.pairwise_cons.mpr ⟨?_, ih ht⟩
        intro y hy
        rcases mem_insertByPriority.mp hy with rfl | hy2
        · exact le_of_not_le h
        · exact hb y hy2

/-- Helper: the priority sort produces a list sorted by priority. -/
theorem pairwise_sortByPriority (l : List ProviderEntry) :
    (sortByPriority l).Pairwise (fun x y => x.priority ≤ y.priority) := by
  induction l with
  | nil => simp [sortByPriority]
  | cons a t ih =>
      unfold sortByPriority
      exact pairwise_insertByPriority ih

/-- Helper: every active entry carries its settings row's priority, or
the sentinel 999 when it has no settings row. -/
theorem buildActiveEntries_shape (table : List (String × ProviderDescriptor))
    (settings : List ProviderSetting) (env : String → Option String) :
    ∀ e ∈ buildActiveEntries table (some settings) env,
      (∀ s, settings.find? (fun s2 => s2.provider_key == e.key) = some s →
          e.priority = s.priority) ∧
      (settings.find? (fun s2 => s2.provider_key == e.key) = none →
          e.priority = 999) := by
  intro e he
  unfold buildActiveEntries at he
  replace he := List.mem_of_mem_filter (mem_sortByPriority.mp he)
  obtain ⟨x, hx, rfl⟩ := List.mem_map.mp he
  dsimp only [Option.bind_eq_bind, Option.some_bind]
  constructor
  · intro s hs
    rw [hs]
  · intro hs
    rw [hs]

/-- C5 counterexample: with a persisted setting for "cerebras" of
priority 1000 and no setting for "groq" (sentinel priority 999), and both
API keys present, the active list places "groq" — the provider WITHOUT a
settings row — before "cerebras", which HAS one.  This contradicts the
claim that providers without a setting sort after all providers with a
setting regardless of the stored priorities. -/
theorem buildActiveEntries_noSetting_before_setting :
    (buildActiveEntries
        [("cerebras", ⟨"Cerebras", "CEREBRAS_API_KEY"⟩),
         ("groq", ⟨"Groq", "GROQ_API_KEY"⟩)]
        (some [⟨"cerebras", 1, 1000⟩])
        (fun _ => some "key")).map (fun e => e.key) = ["groq", "cerebras"] := by
  decide

/-- C5 (amended): the active list is sorted ascending by priority, where
an entry's priority is its settings row's priority, or the sentinel 999
when it has no row; consequently, whenever every stored priority is below
999, every provider without a settings row is placed after all providers
with one.  (A stored priority ≥ 999 can defeat that ordering.) -/
theorem buildActiveEntries_sorted (table : List (String × ProviderDescriptor))
    (settings : List ProviderSetting) (env : String → Option String) :
    (buildActiveEntries table (some settings) env).Pairwise
        (fun a b => a.priority ≤ b.priority) ∧
    ((∀ s ∈ settings, s.priority < 999) →
      (buildActiveEntries table (some settings) env).Pairwise
        (fun a b => hasSetting settings b.key = true →
          hasSetting settings a.key = true)) := by
  have hsorted : (buildActiveEntries table (some settings) env).Pairwise
      (fun a b => a.priority ≤ b.priority) := by
    unfold buildActiveEntries
    exact pairwise_sortByPriority _
  refine ⟨hsorted, fun hp => ?_⟩
  refine List.Pairwise.imp_of_mem ?_ hsorted
  intro a b ha hb hle hbs
  by_contra has
  have has2 : settings.find? (fun s2 => s2.provider_key == a.key) = none := by
    unfold hasSetting at has
    exact Option.not_isSome_iff_eq_none.mp has
  have ha999 := (buildActiveEntries_shape table settings env a ha).2 has2
  obtain ⟨s, hs⟩ := Option.isSome_iff_exists.mp (by unfold hasSetting at hbs; exact hbs)
  have hbp := (buildActiveEntries_shape table settings env b hb).1 s hs
  have hslt := hp s (List.mem_of_find?_eq_some hs)
  omega

/-- Witness for C5 (amended) at a concrete registry state. -/
theorem buildActiveEntries_sorted_witness :
    (buildActiveEntries
        [("cerebras", ⟨"Cerebras", "CEREBRAS_API_KEY"⟩),
         ("groq", ⟨"Groq", "GROQ_API_KEY"⟩)]
        (some [⟨"cerebras", 1, 2⟩]) (fun _ => some "key")).Pairwise
        (fun a b => a.priority ≤ b.priority) ∧
    (buildActiveEntries
        [("cerebras", ⟨"Cerebras", "CEREBRAS_API_KEY"⟩),
         ("groq", ⟨"Groq", "GROQ_API_KEY"⟩)]
        (some [⟨"cerebras", 1, 2⟩]) (fun _ => some "key")).Pairwise
        (fun a b => hasSetting [⟨"cerebras", 1, 2⟩] b.key = true →
          hasSetting [⟨"cerebras", 1, 2⟩] a.key = true) :=
  ⟨(buildActiveEntries_sorted
      [("cerebras", ⟨"Cerebras", "CEREBRAS_API_KEY"⟩),
       ("groq", ⟨"Groq", "GROQ_API_KEY"⟩)]
      [⟨"cerebras", 1, 2⟩] (fun _ => some "key")).1,
   (buildActiveEntries_sorted
      [("cerebras", ⟨"Cerebras", "CEREBRAS_API_KEY"⟩),
       ("groq", ⟨"Groq", "GROQ_API_KEY"⟩)]
      [⟨"cerebras", 1, 2⟩] (fun _ => some "key")).2 (by decide)⟩

/-- Helper: `find?` skips a leading block in which the predicate fails
everywhere. -/
theorem find?_append_of_forall_false {α : Type} (p : α → Bool) {l1 : List α}
    (l2 : List α) (h : ∀ x ∈ l1, p x = false) :
    List.find? p (l1 ++ l2) = List.find? p l2 := by
  induction l1 with
  | nil => rfl
  | cons a t ih =>
      rw [List.cons_append, List.find?_cons_of_neg _ (by simp [h a (by simp)])]
      exact ih (fun x hx => h x (by simp [hx]))

/-- Helper: generated keys start with "sk-". -/
theorem strStarts_generateApiKey (t : String) :
    strStarts (generateApiKey t) "sk-" = true := by
  unfold generateApiKey strStarts
  have hdata : ("sk-" ++ t).data = "sk-".data ++ t.data := rfl
  rw [hdata]
  show ('s' == 's' && ('k' == 'k' && ('-' == '-' && List.isPrefixOf [] t.data))) = true
  simp [List.isPrefixOf]

/-- Helper: generated keys are non-empty. -/
theorem generateApiKey_ne_empty (t : String) : generateApiKey t ≠ "" := by
  intro h
  have hdata : ('s' :: 'k' :: '-' :: t.data) = ([] : List Char) :=
    congrArg String.data h
  simp at hdata

/-- Helper: a validation whose hash lookup finds an active row returns
that row and bumps its usage statistics. -/
theorem validateApiKey_found (hash : String → String) (now : String)
    (store : List ApiKey) (key : String) (r : ApiKey)
    (hk : ¬(key = "" ∨ strStarts key "sk-" = false))
    (hfind : store.find?
        (fun r2 => r2.key_hash == hash key && r2.is_active == 1) = some r) :
    validateApiKey hash now store key =
      (some r,
       store.map (fun x =>
         if x.id = r.id then
           { x with last_used_at := some now, usage_count := x.usage_count + 1 }
         else x)) := by
  unfold validateApiKey
  rw [if_neg hk, hfind]

/-- Helper: a validation whose hash lookup finds no active row returns
null and leaves the table unchanged. -/
theorem validateApiKey_not_found (hash : String → String) (now : String)
    (store : List ApiKey) (key : String)
    (hfind : store.find?
        (fun r2 => r2.key_hash == hash key && r2.is_active == 1) = none) :
    validateApiKey hash now store key = (none, store) := by
  unfold validateApiKey
  by_cases hk : key = "" ∨ strStarts key "sk-" = false
  · rw [if_pos hk]
  · rw [if_neg hk, hfind]

/-- C7: for a key `k` returned by `createApiKey` (with `hash` modelling
SHA-256 as injective, and `hfresh` the table's UNIQUE constraint on
`key_hash`, without which the insert itself would fail): validating `k`
returns the created record and bumps its usage statistics in the table;
after revoking that record's id, validating `k` returns null; and
validating any key distinct from `k` and from every key whose hash is
stored returns null without changing the table. -/
theorem apiKey_validate_lifecycle (hash : String → String)
    (hinj : Function.Injective hash) (randomHex : String)
    (name : Option String) (newId : Nat) (now now2 : String)
    (store0 : List ApiKey) (k : String) (rec : ApiKey) (store1 : List ApiKey)
    (hcreate : createApiKey hash randomHex name newId now store0 = (k, rec, store1))
    (hfresh : ∀ r ∈ store0, r.key_hash ≠ hash k) :
    (validateApiKey hash now2 store1 k).1 = some rec ∧
    { rec with last_used_at := some now2, usage_count := rec.usage_count + 1 }
        ∈ (validateApiKey hash now2 store1 k).2 ∧
    (validateApiKey hash now2 (revokeApiKey store1 rec.id).2 k).1 = none ∧
    (∀ k2, k2 ≠ k → (∀ r ∈ store0, ∀ k0, r.key_hash = hash k0 → k2 ≠ k0) →
        validateApiKey hash now2 store1 k2 = (none, store1)) := by
  have hk : generateApiKey randomHex = k := congrArg Prod.fst hcreate
  have hrec : ApiKey.mk newId (hash (generateApiKey randomHex))
      (strTake (generateApiKey randomHex) 7 ++ "...") name now none 1 0 = rec :=
    congrArg (fun t => t.2.1) hcreate
  have hstore : store0 ++ [ApiKey.mk newId (hash (generateApiKey randomHex))
      (strTake (generateApiKey randomHex) 7 ++ "...") name now none 1 0] =
        store1 :=
    congrArg (fun t => t.2.2) hcreate
  subst hk
  subst hrec
  subst hstore
  have hcond : ¬(generateApiKey randomHex = "" ∨
      strStarts (generateApiKey randomHex) "sk-" = false) := by
    rintro (h | h)
    · exact generateApiKey_ne_empty randomHex h
    · rw [strStarts_generateApiKey] at h
      cases h
  have hfail : ∀ x ∈ store0,
      (x.key_hash == hash (generateApiKey randomHex) &&
        x.is_active == 1) = false := by
    intro x hx
    have hne := hfresh x hx
    simp [hne]
  have hfind : (store0 ++ [ApiKey.mk newId (hash (generateApiKey randomHex))
      (strTake (generateApiKey randomHex) 7 ++ "...") name now none 1 0]).find?
        (fun r2 => r2.key_hash == hash (generateApiKey randomHex) &&
          r2.is_active == 1) =
      some (ApiKey.mk newId (hash (generateApiKey randomHex))
        (strTake (generateApiKey randomHex) 7 ++ "...") name now none 1 0) := by
    rw [find?_append_of_forall_false _ _ hfail]
    rw [List.find?_cons_of_pos _ (by simp)]
  have hval := validateApiKey_found hash now2 _ _ _ hcond hfind
  refine ⟨by rw [hval], ?_, ?_, ?_⟩
  · rw [hval]
    refine List.mem_map.mpr ⟨_, List.mem_append_right store0 (List.mem_singleton.mpr rfl), ?_⟩
    simp
  · have hfind2 : ((revokeApiKey (store0 ++ [ApiKey.mk newId
        (hash (generateApiKey randomHex))
        (strTake (generateApiKey randomHex) 7 ++ "...") name now none 1 0])
        (ApiKey.mk newId (hash (generateApiKey randomHex))
          (strTake (generateApiKey randomHex) 7 ++ "...") name now none 1
          0).id).2).find?
        (fun r2 => r2.key_hash == hash (generateApiKey randomHex) &&
          r2.is_active == 1) = none := by
      show ((store0 ++ [ApiKey.mk newId (hash (generateApiKey randomHex))
          (strTake (generateApiKey randomHex) 7 ++ "...") name now none 1
          0]).map (fun r =>
            if r.id = newId then { r with is_active := 0 } else r)).find?
        (fun r2 => r2.key_hash == hash (generateApiKey randomHex) &&
          r2.is_active == 1) = none
      rw [List.find?_eq_none]
      intro x hx hp
      obtain ⟨r, hr, rfl⟩ := List.mem_map.mp hx
      simp only [Bool.and_eq_true, beq_iff_eq] at hp
      rcases List.mem_append.mp hr with hr0 | hr1
      · by_cases hid : r.id = newId
        · simp [hid] at hp
        · simp [hid] at hp
          exact hfresh r hr0 hp.1
      · have hr2 := List.mem_singleton.mp hr1
        subst hr2
        simp at hp
    rw [validateApiKey_not_found hash now2 _ _ hfind2]
  · intro k2 hk2ne hk2old
    by_cases hc : k2 = "" ∨ strStarts k2 "sk-" = false
    · unfold validateApiKey
      rw [if_pos hc]
    · apply validateApiKey_not_found
      rw [List.find?_eq_none]
      intro r hr hp
      simp only [Bool.and_eq_true, beq_iff_eq] at hp
      rcases List.mem_append.mp hr with hr0 | hr1
      · exact hk2old r hr0 k2 hp.1 rfl
      · have hr2 := List.mem_singleton.mp hr1
        have : hash (generateApiKey randomHex) = hash k2 := by
          rw [← hp.1, hr2]
        exact hk2ne (hinj this.symm)

/-- Witness for C7: a concrete store with the identity as (injective)
hash; the created key "sk-abc" validates to its record, and no longer
does after its id is revoked. -/
theorem apiKey_validate_lifecycle_witness :
    (validateApiKey (fun s => s) "t1"
        [ApiKey.mk 1 "sk-abc" "sk-abc..." none "t0" none 1 0] "sk-abc").1 =
      some (ApiKey.mk 1 "sk-abc" "sk-abc..." none "t0" none 1 0) ∧
    (validateApiKey (fun s => s) "t1"
        (revokeApiKey [ApiKey.mk 1 "sk-abc" "sk-abc..." none "t0" none 1 0]
          (ApiKey.mk 1 "sk-abc" "sk-abc..." none "t0" none 1 0).id).2
        "sk-abc").1 = none := by
  have h := apiKey_validate_lifecycle (fun s => s) (fun _ _ hab => hab) "abc"
      none 1 "t0" "t1" [] "sk-abc"
      (ApiKey.mk 1 "sk-abc" "sk-abc..." none "t0" none 1 0)
      [ApiKey.mk 1 "sk-abc" "sk-abc..." none "t0" none 1 0]
      (by decide) (by simp)
  exact ⟨h.1, h.2.2.1⟩
